import Mathlib

/-!
Verification of the OOXML extract/rebuild pipeline (dify-ooxml-tool).

This file gives a shallow embedding of the text-segment data model and of the
core algorithms of `utils/ooxml_parser.py`, `utils/ooxml_rebuilder.py`,
`tools/extract_ooxml_text.py`, `tools/get_translation_texts.py` and
`tools/update_translations.py`, and proves or refutes the specification claims
about them.

Modelling conventions:
- Python strings are Lean `String`s; character classifications (`isalnum`,
  `isdigit`, whitespace stripping) are modelled on the ASCII fragment, which is
  the fragment all claims and counterexamples use.
- A Python dict field that can be absent, `None`, or a string is modelled by
  the three-state type `PyVal`; `segment.get('translated_text', '')` is
  `getTranslatedDefault`.
- An lxml element tree is the mutual inductive `Xml`/`XmlList`; element tags
  are opaque strings already carrying their namespace prefix (namespace-prefix
  resolution is injective renaming and does not affect node counting or
  location).  The only attribute the code ever touches, `xml:space`, is the
  Boolean field `pres`.
- XPath expressions of the shape produced by `_create_element_xpath`
  (`//seg1/seg2[k]/...`) are step lists; evaluation follows XPath child-step
  semantics with 1-based same-tag sibling positions, starting from the
  descendant-or-self axis of the (virtual) document node, in document order.
- In-place list mutation (sorting, per-segment text updates) is modelled by
  returning the updated list/tree; `time.sleep` delays are recorded in a trace.
-/

/-! ## Python string helpers (ASCII fragment) -/

/-- Python `str.lstrip()`. -/
def pyLstrip (s : String) : String := String.mk (s.data.dropWhile Char.isWhitespace)

/-- Python `str.rstrip()`. -/
def pyRstrip (s : String) : String := String.mk ((s.data.reverse.dropWhile Char.isWhitespace).reverse)

/-- Python `str.strip()`. -/
def pyStrip (s : String) : String := pyRstrip (pyLstrip s)

/-- Python `s[-1]` (callers guard non-emptiness; the default is never reached). -/
def lastCharD (s : String) : Char := s.data.getLast?.getD 'A'

/-- Python `s[0]` (callers guard non-emptiness; the default is never reached). -/
def headCharD (s : String) : Char := s.data.head?.getD 'A'

/-- Python `s.endswith(' ')`. -/
def pyEndsWithSpace (s : String) : Bool :=
  match s.data.getLast? with
  | some c => c == ' '
  | none => false

/-- Python `s.startswith(' ')`. -/
def pyStartsWithSpace (s : String) : Bool :=
  match s.data.head? with
  | some c => c == ' '
  | none => false

/-- Python `s.endswith(suf)`. -/
def pyEndsWith (s suf : String) : Bool :=
  (s.data.reverse.take suf.data.length) == suf.data.reverse

/-- Python `'  ' in s`: two consecutive spaces occur. -/
def hasDoubleSpace : List Char → Bool
  | a :: b :: rest => (a == ' ' && b == ' ') || hasDoubleSpace (b :: rest)
  | _ => false

/-- A run of `n` spaces, Python `' ' * n`. -/
def spacesN (n : Nat) : String := String.mk (List.replicate n ' ')

/-! ## Segment data model -/

/-- Three-state Python dict field: key absent, value `None`, or a string. -/
inductive PyVal where
  | absent
  | null
  | str (s : String)
deriving DecidableEq, Repr

/-- `segment.get('translated_text', '')` followed by the `is None` test:
`none` here means the Python value was `None`; an absent key defaults to `""`. -/
def getTranslatedDefault : PyVal → Option String
  | .absent => some ""
  | .null => none
  | .str s => some s

/-- The `space_info` record produced by `OOXMLParser._analyze_text_spaces`. -/
structure SpaceInfo where
  raw_text : String
  leading_spaces : Nat
  trailing_spaces : Nat
  is_pure_space : Bool
  has_content : Bool
deriving DecidableEq, Repr

/-- `OOXMLParser._analyze_text_spaces` (ooxml_parser.py). -/
def analyzeTextSpaces (raw : String) : SpaceInfo :=
  if raw = "" then
    { raw_text := "", leading_spaces := 0, trailing_spaces := 0,
      is_pure_space := true, has_content := false }
  else
    let stripped := pyStrip raw
    { raw_text := raw,
      leading_spaces := raw.length - (pyLstrip raw).length,
      trailing_spaces := raw.length - (pyRstrip raw).length,
      is_pure_space := stripped == "",
      has_content := !(stripped == "") }

/-- One step of a locator expression `//s1/s2[k]/...`: a (prefixed) tag name
and an optional 1-based same-tag sibling position. -/
structure Step where
  tag : String
  pos : Option Nat
deriving DecidableEq, Repr

/-- A text segment record as produced by extraction (the dict fields the
claims depend on; `element_xpath` is the parsed form of the xpath string,
`nsKey` the namespace strategy recorded in `namespace_map`). -/
structure Segment where
  sequence_id : Nat
  text_id : String
  original_text : String
  translated_text : PyVal
  xml_file_path : String
  element_xpath : List Step
  shared_string_index : Option Nat
  nsKey : Option String
  space_info : SpaceInfo
deriving DecidableEq, Repr

/-! ## Inter-segment space rule (OOXMLRebuilder) -/

/-- `OOXMLRebuilder._should_add_space_after`: both connection characters
alphanumeric. -/
def shouldAddSpaceAfter (cur next : String) : Bool :=
  if cur == "" || next == "" then false
  else
    let cs := pyStrip cur
    let ns := pyStrip next
    if cs == "" || ns == "" then false
    else (lastCharD cs).isAlphanum && (headCharD ns).isAlphanum

/-- The trailing punctuation set of `_should_add_space_after_punct`. -/
def closingPunct : List Char := [',', '.', ';', ':', '!', '?', ')', ']', '}', '"', '\'']

/-- The opening punctuation set of `_should_add_space_after_punct`. -/
def openingPunct : List Char := ['(', '[', '{', '"', '\'']

/-- `OOXMLRebuilder._should_add_space_after_punct`. -/
def shouldAddSpaceAfterPunct (cur next : String) : Bool :=
  if cur == "" || next == "" then false
  else
    let cs := pyStrip cur
    let ns := pyStrip next
    if cs == "" || ns == "" then false
    else
      let cl := lastCharD cs
      let nf := headCharD ns
      if closingPunct.contains cl && nf.isAlphanum then true
      else if cl.isAlphanum && openingPunct.contains nf then true
      else false

/-- The digit-digit override inside `_preprocess_segments_with_spaces`. -/
def digitDigitAdj (cur next : String) : Bool :=
  let cs := pyStrip cur
  let ns := pyStrip next
  !(cs == "") && !(ns == "") && (lastCharD cs).isDigit && (headCharD ns).isDigit

/-- The complete per-pair decision of `_preprocess_segments_with_spaces`:
whether a space is actually appended to the current segment's text. -/
def appendSpaceDecision (curV nextV : PyVal) : Bool :=
  match getTranslatedDefault curV, getTranslatedDefault nextV with
  | some cur, some next =>
    let s1 := shouldAddSpaceAfter cur next || shouldAddSpaceAfterPunct cur next
    let s2 := if s1 && digitDigitAdj cur next then false else s1
    s2 && !(cur == "") && !(pyEndsWithSpace cur)
  | _, _ => false

/-- `current_segment['translated_text'] = current_text + ' '`. -/
def appendSpaceVal : PyVal → PyVal
  | .str s => .str (s ++ " ")
  | .absent => .str " "
  | .null => .null

/-- The pair loop of `_preprocess_segments_with_spaces` over the sorted list:
each segment other than the last may get one space appended, decided from its
own (pre-pass) text and the untouched text of its successor. -/
def applyBoundaries : List Segment → List Segment
  | [] => []
  | [s] => [s]
  | a :: b :: rest =>
    (if appendSpaceDecision a.translated_text b.translated_text then
      { a with translated_text := appendSpaceVal a.translated_text }
    else a) :: applyBoundaries (b :: rest)

/-- Stable insertion into a list ascending by `sequence_id`. -/
def insertBySeq (s : Segment) : List Segment → List Segment
  | [] => [s]
  | t :: ts => if s.sequence_id ≤ t.sequence_id then s :: t :: ts else t :: insertBySeq s ts

/-- `segments.sort(key=lambda x: x.get('sequence_id', 0))`: a stable sort by
`sequence_id` (Python's sort is stable; any stable sort by the same key is
extensionally identical). -/
def sortBySeq : List Segment → List Segment
  | [] => []
  | s :: ss => insertBySeq s (sortBySeq ss)

/-- The list is already ascending by `sequence_id`. -/
def seqSortedB : List Segment → Bool
  | [] => true
  | [_] => true
  | a :: b :: rest => (a.sequence_id ≤ b.sequence_id) && seqSortedB (b :: rest)

/-- `OOXMLRebuilder._preprocess_segments_with_spaces`. -/
def preprocessSegmentsWithSpaces (segs : List Segment) : List Segment :=
  applyBoundaries (sortBySeq segs)

/-! ## XML trees and locator evaluation -/

mutual
/-- An lxml element: tag (with namespace prefix), text, the `xml:space`
attribute (`pres = true` iff the attribute is present with value
`preserve`), and child elements. -/
inductive Xml where
  | elem (tag text : String) (pres : Bool) (children : XmlList)
/-- Child list of an element (a separate inductive so that all tree
recursions are structural and kernel-reducible). -/
inductive XmlList where
  | nil
  | cons (x : Xml) (xs : XmlList)
end

def XmlList.toList : XmlList → List Xml
  | .nil => []
  | .cons x xs => x :: xs.toList

def XmlList.ofL : List Xml → XmlList
  | [] => .nil
  | x :: xs => .cons x (XmlList.ofL xs)

def Xml.tag : Xml → String
  | .elem t _ _ _ => t

def Xml.text : Xml → String
  | .elem _ s _ _ => s

def Xml.pres : Xml → Bool
  | .elem _ _ b _ => b

def Xml.children (x : Xml) : List Xml :=
  match x with
  | .elem _ _ _ cs => cs.toList

/-- Navigate to the element at a child-index path. -/
def locate (x : Xml) : List Nat → Option Xml
  | [] => some x
  | i :: p =>
    match x.children.get? i with
    | some c => locate c p
    | none => none

/-- Rewrite the element at a child-index path. -/
def modifyAt (f : Xml → Xml) : Xml → List Nat → Xml
  | x, [] => f x
  | .elem tg tx pv cs, i :: p =>
    .elem tg tx pv (match cs.toList.get? i with
      | some c => XmlList.ofL (cs.toList.take i ++ modifyAt f c p :: cs.toList.drop (i + 1))
      | none => cs)

mutual
/-- Child-index paths of all descendant-or-self elements, in document
(pre-)order. -/
def descPaths : Xml → List (List Nat)
  | .elem _ _ _ cs => [] :: descPathsL 0 cs
def descPathsL : Nat → XmlList → List (List Nat)
  | _, .nil => []
  | i, .cons c cs => (descPaths c).map (fun p => i :: p) ++ descPathsL (i + 1) cs
end

/-- Number of children carrying a given tag, Python's same-tag sibling list
length over a prefix. -/
def countTag (tag : String) (cs : List Xml) : Nat :=
  (cs.filter (fun c => c.tag == tag)).length

/-- Indices (into the full child list) of the children carrying a tag,
starting from index `i`. -/
def matchIdxsAux (tag : String) : Nat → List Xml → List Nat
  | _, [] => []
  | i, c :: cs =>
    if c.tag == tag then i :: matchIdxsAux tag (i + 1) cs
    else matchIdxsAux tag (i + 1) cs

/-- Child indices selected by one locator step (XPath `child::tag[pos]`
semantics: position counts same-tag siblings, 1-based). -/
def matchIdxs (cs : List Xml) (s : Step) : List Nat :=
  let tagged := matchIdxsAux s.tag 0 cs
  match s.pos with
  | none => tagged
  | some p =>
    match tagged.get? (p - 1) with
    | some i => [i]
    | none => []

/-- Apply one child step to the node at path `pp` (paths are relative to
`root`). -/
def childMatchPaths (root : Xml) (pp : List Nat) (s : Step) : List (List Nat) :=
  match locate root pp with
  | none => []
  | some e => (matchIdxs e.children s).map (fun i => pp ++ [i])

/-- Apply one child step to a whole node set (in document order). -/
def stepEvalPaths (root : Xml) (ps : List (List Nat)) (s : Step) : List (List Nat) :=
  (ps.map (fun pp => childMatchPaths root pp s)).flatten

/-- The virtual document node above the root element (lxml's `//a/...`
starts from the document node's descendant-or-self axis). -/
def docNode (root : Xml) : Xml :=
  .elem "#document" "" false (.cons root .nil)

/-- Evaluate a locator `//s1/s2/...` against a tree: the matched node set as
paths relative to the document node, in document order. -/
def xpathPaths (root : Xml) (steps : List Step) : List (List Nat) :=
  steps.foldl (stepEvalPaths (docNode root)) (descPaths (docNode root))

/-- `elements[0]` of a locator evaluation, as a path relative to `root`. -/
def xpathFirst (root : Xml) (steps : List Step) : Option (List Nat) :=
  match xpathPaths root steps with
  | [] => none
  | pp :: _ =>
    match pp with
    | 0 :: rest => some rest
    | _ => none

/-- The locator step `_create_element_xpath` emits for the child at index `i`
of a parent with child list `cs`: the 1-based position among same-tag
siblings is appended only when it exceeds 1. -/
def stepFor (cs : List Xml) (i : Nat) (c : Xml) : Step :=
  let pos := countTag c.tag (cs.take (i + 1))
  { tag := c.tag, pos := if 1 < pos then some pos else none }

/-- Steps of `_create_element_xpath` below the root, along a child-index
path. -/
def mkStepsAux : Xml → List Nat → List Step
  | x, i :: p =>
    match x.children.get? i with
    | some c => stepFor x.children i c :: mkStepsAux c p
    | none => []
  | _, [] => []

/-- `OOXMLParser._create_element_xpath` for the element at `path`: the chain
of tags from the root down, with positional suffixes only at positions > 1
(the root itself never gets a suffix). -/
def mkXpath (root : Xml) (path : List Nat) : List Step :=
  { tag := root.tag, pos := none } :: mkStepsAux root path

/-! ## Replacement (OOXMLRebuilder rebuild paths) -/

/-- `OOXMLRebuilder._requires_xml_space_preserve`. -/
def requiresXmlSpacePreserve (text : String) : Bool :=
  pyStartsWithSpace text || pyEndsWithSpace text || hasDoubleSpace text.data

/-- The DOCX node update: set the text and apply
`_apply_xml_space_preserve` (which sets the attribute when required and
deletes it otherwise; the five consecutive calls in the source are
idempotent). -/
def docxApplyText (final : String) : Xml → Xml
  | .elem tg _ _ cs => .elem tg final (requiresXmlSpacePreserve final) cs

/-- The XLSX/PPTX node update: set the text only (no whitespace-preserve
marking in those code paths). -/
def setTextOnly (final : String) : Xml → Xml
  | .elem tg _ pv cs => .elem tg final pv cs

/-- The per-entry replacement accumulator: current tree and
`replaced_count`. -/
structure ReplaceState where
  tree : Xml
  replaced : Nat

/-- One iteration of the segment loop in
`OOXMLRebuilder._replace_docx_text_in_xml`: skip `None`, skip empty xpath,
find the elements, write `elements[0]` with whitespace-preserve marking. -/
def processDocxSegment (st : ReplaceState) (s : Segment) : ReplaceState :=
  match getTranslatedDefault s.translated_text with
  | none => st
  | some final =>
    if s.element_xpath = [] then st
    else
      match xpathFirst st.tree s.element_xpath with
      | none => st
      | some pp => { tree := modifyAt (docxApplyText final) st.tree pp, replaced := st.replaced + 1 }

/-- One iteration of the segment loop in
`OOXMLRebuilder._replace_pptx_text_in_xml` (identical to the DOCX one except
that no whitespace-preserve marking is applied). -/
def processPptxSegment (st : ReplaceState) (s : Segment) : ReplaceState :=
  match getTranslatedDefault s.translated_text with
  | none => st
  | some final =>
    if s.element_xpath = [] then st
    else
      match xpathFirst st.tree s.element_xpath with
      | none => st
      | some pp => { tree := modifyAt (setTextOnly final) st.tree pp, replaced := st.replaced + 1 }

mutual
/-- First descendant (strictly below the given element, document order) with
a given tag, over a child list starting at index `i`. -/
def firstTagPathL (tag : String) : Nat → XmlList → Option (List Nat)
  | _, .nil => none
  | i, .cons c cs =>
    if c.tag == tag then some [i]
    else
      match firstTagPathIn tag c with
      | some p => some (i :: p)
      | none => firstTagPathL tag (i + 1) cs
/-- First strict descendant with a given tag, lxml `elem.xpath(".//tag")[0]`,
as a path relative to the element. -/
def firstTagPathIn (tag : String) : Xml → Option (List Nat)
  | .elem _ _ _ cs => firstTagPathL tag 0 cs
end

/-- The `si` lookup tag of the namespace branch chosen in
`_replace_xlsx_shared_strings` (`x:si`, `default:si` or bare `si`). -/
def siTagOf : Option String → String
  | some p => p ++ ":si"
  | none => "si"

/-- The `t` lookup tag of the namespace branch chosen in
`_replace_xlsx_shared_strings`. -/
def tTagOf : Option String → String
  | some p => p ++ ":t"
  | none => "t"

/-- One iteration of the segment loop in
`OOXMLRebuilder._replace_xlsx_shared_strings`: locate `//ns:si[idx+1]`, then
its first `.//ns:t` descendant, and set that node's text (no
whitespace-preserve marking). -/
def processXlsxSharedSegment (st : ReplaceState) (s : Segment) : ReplaceState :=
  match getTranslatedDefault s.translated_text with
  | none => st
  | some final =>
    match s.shared_string_index with
    | none => st
    | some idx =>
      let siTag := siTagOf s.nsKey
      let tTag := tTagOf s.nsKey
      match xpathFirst st.tree [{ tag := siTag, pos := some (idx + 1) }] with
      | none => st
      | some siPath =>
        match locate st.tree siPath with
        | none => st
        | some siElem =>
          match firstTagPathIn tTag siElem with
          | none => st
          | some tp =>
            { tree := modifyAt (setTextOnly final) st.tree (siPath ++ tp),
              replaced := st.replaced + 1 }

/-- The bytes of one archive entry as the rebuilder sees them: either bytes
that secure-parse to a tree (and reserialize deterministically from it), or
bytes on which processing of the entry fails as a whole (parse or
reserialization error). -/
inductive EntryContent where
  | xmlOk (x : Xml)
  | xmlBad (id : Nat)

/-- `OOXMLRebuilder._replace_docx_text_in_xml` at entry level: on any
entry-level failure the original bytes are returned with a zero count;
otherwise the segments are sorted by `sequence_id` and applied in order. -/
def replaceDocxXml (content : EntryContent) (segs : List Segment) : EntryContent × Nat :=
  match content with
  | .xmlBad r => (.xmlBad r, 0)
  | .xmlOk x =>
    let st := (sortBySeq segs).foldl processDocxSegment { tree := x, replaced := 0 }
    (.xmlOk st.tree, st.replaced)

def insertGroup : List (String × List Segment) → String → Segment → List (String × List Segment)
  | [], path, s => [(path, [s])]
  | (p, ss) :: rest, path, s =>
    if p == path then (p, ss ++ [s]) :: rest
    else (p, ss) :: insertGroup rest path s

/-- `OOXMLRebuilder._group_segments_by_file`: keep segments with a non-empty
entry path whose `translated_text` is not `None` (an absent field defaults
to the empty string and is kept), grouped by entry path in insertion
order. -/
def groupSegmentsByFile (segs : List Segment) : List (String × List Segment) :=
  segs.foldl (fun g s =>
    if s.xml_file_path == "" then g
    else if s.translated_text == PyVal.null then g
    else insertGroup g s.xml_file_path s) []

def lookupGroup : List (String × List Segment) → String → Option (List Segment)
  | [], _ => none
  | (p, ss) :: rest, path => if p == path then some ss else lookupGroup rest path

/-- The per-entry branch of `OOXMLRebuilder._rebuild_docx`: entries with
grouped segments and an `.xml` name are rewritten, every other entry is
copied byte-for-byte. -/
def rebuildEntry (groups : List (String × List Segment)) (e : String × EntryContent) :
    (String × EntryContent) × Nat :=
  match lookupGroup groups e.1 with
  | some ss =>
    if pyEndsWith e.1 ".xml" then
      let r := replaceDocxXml e.2 ss
      ((e.1, r.1), r.2)
    else ((e.1, e.2), 0)
  | none => ((e.1, e.2), 0)

/-- `OOXMLRebuilder._rebuild_docx`: preprocess spaces, group by entry,
rewrite affected entries in original archive order, sum the replacement
counts, and always return the complete new archive. -/
def rebuildDocx (entries : List (String × EntryContent)) (segs : List Segment) :
    List (String × EntryContent) × Nat :=
  let pre := preprocessSegmentsWithSpaces segs
  let groups := groupSegmentsByFile pre
  entries.foldl (fun acc e =>
    let r := rebuildEntry groups e
    (acc.1 ++ [r.1], acc.2 + r.2)) ([], 0)

/-! ## Extraction (OOXMLParser / ExtractOoxmlTextTool) -/

/-- Paths of all `w:t` elements of one entry, in document order
(`root.xpath("//w:t")`). -/
def docxTextPaths (root : Xml) : List (List Nat) :=
  (descPaths root).filter (fun p =>
    match locate root p with
    | some e => e.tag == "w:t"
    | none => false)

/-- `OOXMLParser._extract_docx_document_text`: one segment per `w:t`
element, with per-entry local sequence ids, trimmed `original_text`, the
locator from `_create_element_xpath`, and the frozen `space_info`. -/
def extractDocxSegments (root : Xml) (xmlPath : String) : List Segment :=
  (docxTextPaths root).enum.map (fun pr =>
    let raw := match locate root pr.2 with
      | some e => e.text
      | none => ""
    { sequence_id := pr.1,
      text_id := xmlPath ++ "_" ++ toString pr.1,
      original_text := pyStrip raw,
      translated_text := .str "",
      xml_file_path := xmlPath,
      element_xpath := mkXpath root pr.2,
      shared_string_index := none,
      nsKey := some "w",
      space_info := analyzeTextSpaces raw })

/-- `OOXMLParser._parse_docx`: concatenation of the per-entry segment lists
in entry-processing order. -/
def parseDocxEntries (entries : List (String × Xml)) : List Segment :=
  (entries.map (fun e => extractDocxSegments e.2 e.1)).flatten

/-- The sequence-id reassignment loop of `ExtractOoxmlTextTool._invoke`
(`segment["sequence_id"] = i` over the final list). -/
def assignSequenceIds (segs : List Segment) : List Segment :=
  segs.enum.map (fun pr => { pr.2 with sequence_id := pr.1 })

/-! ## Translation hand-off and hand-back -/

/-- The content filter of `GetTranslationTextsTool._invoke`: only segments
with `has_content` and not `is_pure_space` are rendered as
`<segment id=...>` elements; the hand-off output is built from exactly this
list. -/
def handoffSources (segs : List Segment) : List Segment :=
  (sortBySeq segs).filter (fun s => s.space_info.has_content && !s.space_info.is_pure_space)

/-- One iteration of the update loop of `UpdateTranslationsTool._invoke`
(new data format, `space_info` present): pure-space segments get their raw
text back; content segments with a mapped id and a non-empty trimmed
translation get the translation with leading/trailing spaces restored;
content segments without a mapping get their raw text; every other segment
is left untouched. -/
def updateSegmentNew (mapping : Nat → Option String) (dict : String → Option String)
    (i : Nat) (s : Segment) : Segment :=
  if s.space_info.is_pure_space then
    { s with translated_text := .str s.space_info.raw_text }
  else if s.space_info.has_content then
    match mapping i with
    | some xmlId =>
      match dict xmlId with
      | some tr =>
        let t := pyStrip tr
        if t == "" then s
        else
          let full := spacesN s.space_info.leading_spaces ++ t ++ spacesN s.space_info.trailing_spaces
          { s with translated_text := PyVal.str full }
      | none => s
    | none => { s with translated_text := .str s.space_info.raw_text }
  else s

/-- Python dict assignment: replace in place or append. -/
def upsert : List (String × String) → String → String → List (String × String)
  | [], k, v => [(k, v)]
  | (k', v') :: rest, k, v =>
    if k' == k then (k', v) :: rest else (k', v') :: upsert rest k v

/-- The per-element filter of `UpdateTranslationsTool._parse_xml_translations`
over the parsed `<segment id=..>text</segment>` elements: elements with a
falsy id or empty/whitespace-only content are dropped, kept values are
stripped, duplicate ids are resolved last-wins. -/
def parseTranslationPairs (pairs : List (String × String)) : List (String × String) :=
  pairs.foldl (fun acc pr =>
    if pr.1 == "" then acc
    else if pyStrip pr.2 == "" then acc
    else upsert acc pr.1 (pyStrip pr.2)) []

/-- Dict lookup over the assoc-list model (keys are unique). -/
def dictLookup : List (String × String) → String → Option String
  | [], _ => none
  | (k, v) :: rest, key => if k == key then some v else dictLookup rest key

/-! ## parse_file retry machinery (OOXMLParser) -/

/-- Outcome of one body execution of the retry loop of
`OOXMLParser.parse_file`. -/
inductive ParseOutcome where
  | success
  | badZip
  | xmlSyntax
  | resource
  | other
deriving DecidableEq, Repr

/-- Observable trace of the retry loop: number of attempts executed, sleep
delays between consecutive attempts (in order), overall success, whether the
loop was aborted by a resource-exhaustion error. -/
structure RunTrace where
  attempts : Nat
  delays : List Nat
  success : Bool
  resourceAbort : Bool
deriving DecidableEq, Repr

/-- The retry loop of `parse_file` starting at attempt `k` with `r` retries
left: success returns; `MemoryError`/`OverflowError` returns immediately;
any other failure on the last attempt returns the error response, and
otherwise sleeps `retry_delay * (attempt + 1)` and retries. -/
def runFrom (outcomes : Nat → ParseOutcome) (retryDelay : Nat) (k : Nat) : Nat → RunTrace
  | 0 =>
    match outcomes k with
    | .success => { attempts := 1, delays := [], success := true, resourceAbort := false }
    | .resource => { attempts := 1, delays := [], success := false, resourceAbort := true }
    | _ => { attempts := 1, delays := [], success := false, resourceAbort := false }
  | r + 1 =>
    match outcomes k with
    | .success => { attempts := 1, delays := [], success := true, resourceAbort := false }
    | .resource => { attempts := 1, delays := [], success := false, resourceAbort := true }
    | _ =>
      let rest := runFrom outcomes retryDelay (k + 1) r
      { attempts := rest.attempts + 1, delays := retryDelay * (k + 1) :: rest.delays,
        success := rest.success, resourceAbort := rest.resourceAbort }

/-- `self.max_file_size = 100 * 1024 * 1024`. -/
def maxFileSize : Nat := 100 * 1024 * 1024

/-- `OOXMLParser._validate_inputs` over the input bytes (one `Nat` per
byte): returns the error message of the first failing check, or `none` when
the input passes validation.  `file_data.startswith(b'PK')` is the 0x50 0x4B
signature check. -/
def validateInputs (fileData : List Nat) (fileType : String) : Option String :=
  if fileData = [] then some "Empty file data provided"
  else if fileData.length < 100 then some "File too small to be a valid OOXML document"
  else if maxFileSize < fileData.length then some "File too large"
  else if !(fileType == "docx" || fileType == "xlsx" || fileType == "pptx") then
    some "Unsupported file type"
  else if !(fileData.take 2 == [0x50, 0x4B]) then
    some "Invalid file format - not a ZIP-based file"
  else none

/-- `OOXMLParser.parse_file`: input validation first (returning the error
response with no parse attempt at all), then the retry loop.  The result is
`none` when validation rejects the input, otherwise the trace of the retry
loop. -/
def parseFileModel (fileData : List Nat) (fileType : String)
    (outcomes : Nat → ParseOutcome) (maxRetries retryDelay : Nat) : Option RunTrace :=
  match validateInputs fileData fileType with
  | some _ => none
  | none => some (runFrom outcomes retryDelay 0 maxRetries)

/-! ## Spec-side definition for the boundary-rule claim -/

/-- Modelled from the spec's words (§4.6, claim C3): a space is due iff the
connection characters are both alphanumeric but not both digits, or closing
punctuation meets an alphanumeric, or an alphanumeric meets opening
punctuation.  Stated for comparison with the code-derived
`appendSpaceDecision`. -/
def specBoundaryRule (ta tb : String) : Bool :=
  let a := lastCharD (pyStrip ta)
  let b := headCharD (pyStrip tb)
  (a.isAlphanum && b.isAlphanum && !(a.isDigit && b.isDigit)) ||
  (closingPunct.contains a && b.isAlphanum) ||
  (a.isAlphanum && openingPunct.contains b)

/-! ## Basic lemmas -/

theorem toList_ofL (l : List Xml) : (XmlList.ofL l).toList = l := by
  induction l with
  | nil => rfl
  | cons x xs ih => simp [XmlList.ofL, XmlList.toList, ih]

theorem get?_surgery {α : Type} (l : List α) (i : Nat) (y : α) (h : i < l.length) :
    (l.take i ++ y :: l.drop (i + 1)).get? i = some y := by
  induction l generalizing i with
  | nil => simp at h
  | cons a l ih =>
    cases i with
    | zero => rfl
    | succ j =>
      simp only [List.take, List.drop, List.cons_append, List.get?]
      exact ih j (by simpa using h)

theorem locate_modifyAt (f : Xml → Xml) (pp : List Nat) :
    ∀ (x : Xml) (e : Xml), locate x pp = some e →
      locate (modifyAt f x pp) pp = some (f e) := by
  induction pp with
  | nil =>
    intro x e h
    simp only [locate, Option.some.injEq] at h
    subst h
    cases x with
    | elem tg tx pv cs => rfl
  | cons i p ih =>
    intro x e h
    cases x with
    | elem tg tx pv cs =>
      simp only [locate] at h
      cases hg : (Xml.elem tg tx pv cs).children.get? i with
      | none => rw [hg] at h; exact absurd h (by simp)
      | some c =>
        rw [hg] at h
        have hlen : i < cs.toList.length := by
          have := List.get?_eq_some.mp (show cs.toList.get? i = some c from hg)
          exact this.1
        simp only [modifyAt, Xml.children] at hg ⊢
        rw [hg]
        simp only [locate, Xml.children, toList_ofL]
        rw [get?_surgery cs.toList i (modifyAt f c p) hlen]
        exact ih c e h

theorem locate_append (a b : List Nat) :
    ∀ x : Xml, locate x (a ++ b) = (locate x a).bind (fun y => locate y b) := by
  induction a with
  | nil => intro x; rfl
  | cons i p ih =>
    intro x
    simp only [List.cons_append, locate]
    cases x.children.get? i with
    | none => rfl
    | some c => exact ih c

/-! ## C6: sequence ids are exactly 0, 1, 2, ... after extraction -/

/-- C6: after extraction of a single document (all archive entries
concatenated in traversal order), the tool's reassignment loop makes the
`sequence_id` values over the full returned segment list exactly
`0, 1, 2, ...` — no gaps, no duplicates, strictly increasing in
document-traversal order. -/
theorem c6_sequence_ids (entries : List (String × Xml)) :
    (assignSequenceIds (parseDocxEntries entries)).map (fun s => s.sequence_id) =
      List.range (parseDocxEntries entries).length := by
  unfold assignSequenceIds
  rw [List.map_map]
  have h : ((fun s : Segment => s.sequence_id) ∘
      (fun pr : Nat × Segment => { pr.2 with sequence_id := pr.1 })) =
      Prod.fst := by
    funext pr; rfl
  rw [h, List.enum_map_fst]

/-! ## C9: entry-level failure is non-fatal and copies original bytes -/

theorem rebuildEntry_bad (groups : List (String × List Segment)) (name : String) (r : Nat) :
    rebuildEntry groups (name, EntryContent.xmlBad r) = ((name, EntryContent.xmlBad r), 0) := by
  unfold rebuildEntry
  cases h : lookupGroup groups name with
  | none => simp [h]
  | some ss =>
    simp only [h]
    split <;> rfl

/-- C9: if processing of one affected XML entry fails as a whole, that
entry's original bytes are written into the new archive unchanged, it
contributes 0 to the replacement count, and the rebuild of all remaining
entries proceeds and still returns a complete archive. -/
theorem c9_failed_entry_passthrough (entries : List (String × EntryContent))
    (name : String) (r : Nat) (segs : List Segment) :
    rebuildDocx (entries ++ [(name, EntryContent.xmlBad r)]) segs =
      ((rebuildDocx entries segs).1 ++ [(name, EntryContent.xmlBad r)],
        (rebuildDocx entries segs).2) := by
  unfold rebuildDocx
  rw [List.foldl_append]
  simp [rebuildEntry_bad]

/-! ## Sorting and boundary-pass lemmas -/

theorem sortBySeq_of_sorted : ∀ l : List Segment, seqSortedB l = true → sortBySeq l = l := by
  intro l
  induction l with
  | nil => intro _; rfl
  | cons a t ih =>
    cases t with
    | nil => intro _; rfl
    | cons b rest =>
      intro h
      simp only [seqSortedB, Bool.and_eq_true, decide_eq_true_eq] at h
      simp only [sortBySeq] at ih ⊢
      rw [ih h.2]
      simp [insertBySeq, h.1]

theorem applyBoundaries_cons (x b : Segment) (rest : List Segment) :
    applyBoundaries (x :: b :: rest) =
      (if appendSpaceDecision x.translated_text b.translated_text then
        { x with translated_text := appendSpaceVal x.translated_text }
      else x) :: applyBoundaries (b :: rest) := rfl

theorem applyBoundaries_get? (a b : Segment) (ys : List Segment) :
    ∀ xs : List Segment,
      (applyBoundaries (xs ++ a :: b :: ys)).get? xs.length =
        some (if appendSpaceDecision a.translated_text b.translated_text then
          { a with translated_text := appendSpaceVal a.translated_text }
        else a) := by
  intro xs
  induction xs with
  | nil => rfl
  | cons x xs ih =>
    cases hx : xs ++ a :: b :: ys with
    | nil => exact absurd hx (by simp)
    | cons y l =>
      rw [List.cons_append, hx, applyBoundaries_cons, ← hx]
      simpa using ih

/-- No consecutive pair of the list triggers the append-space decision. -/
def noBoundaryFire : List Segment → Bool
  | a :: b :: rest =>
    !(appendSpaceDecision a.translated_text b.translated_text) && noBoundaryFire (b :: rest)
  | _ => true

theorem applyBoundaries_id : ∀ l : List Segment, noBoundaryFire l = true → applyBoundaries l = l := by
  intro l
  induction l with
  | nil => intro _; rfl
  | cons a t ih =>
    cases t with
    | nil => intro _; rfl
    | cons b rest =>
      intro h
      simp only [noBoundaryFire, Bool.and_eq_true, Bool.not_eq_true'] at h
      rw [applyBoundaries_cons, h.1, ih h.2]
      simp

/-! ## C1: identity round trip and the space preprocessing -/

/-- A two-run DOCX body whose runs split the word `hello` into `hel` and
`lo` (adjacent formatting runs with no whitespace between them). -/
def docTwoRuns : Xml :=
  .elem "w:document" "" false (.cons
    (.elem "w:body" "" false (.cons
      (.elem "w:p" "" false (.cons
        (.elem "w:r" "" false (.cons (.elem "w:t" "hel" false .nil) .nil))
        (.cons (.elem "w:r" "" false (.cons (.elem "w:t" "lo" false .nil) .nil)) .nil)))
      .nil))
    .nil)

/-- Texts of all `w:t` nodes of an entry tree, in document order. -/
def docxNodeTexts (root : Xml) : List String :=
  (docxTextPaths root).map (fun p =>
    match locate root p with
    | some e => e.text
    | none => "")

/-- The identity translation of C1: every segment's `translated_text` is set
to its own captured raw node text. -/
def identityTranslate (segs : List Segment) : List Segment :=
  segs.map (fun s => { s with translated_text := PyVal.str s.space_info.raw_text })

/-- The node texts after extracting `docTwoRuns` and rebuilding it under the
identity translation. -/
def c1RebuiltTexts : List String :=
  match (rebuildDocx [("word/document.xml", EntryContent.xmlOk docTwoRuns)]
      (identityTranslate (extractDocxSegments docTwoRuns "word/document.xml"))).1 with
  | [(_, EntryContent.xmlOk x)] => docxNodeTexts x
  | _ => []

/-- C1 counterexample: on the valid two-run document `docTwoRuns`, running
extraction and then rebuild with every segment's `translated_text` equal to
its own raw node text does NOT reproduce the original text content: the
space preprocessing appends a space to the first run (`"hel"` becomes
`"hel "`), so the rebuilt texts are `["hel ", "lo"]` while the original ones
are `["hel", "lo"]`. -/
theorem c1_roundtrip_counterexample :
    c1RebuiltTexts ≠ docxNodeTexts docTwoRuns ∧
      c1RebuiltTexts = ["hel ", "lo"] ∧ docxNodeTexts docTwoRuns = ["hel", "lo"] := by
  refine ⟨?_, rfl, rfl⟩
  decide

/-- C1 amended: the space preprocessing `_preprocess_segments_with_spaces`
leaves every segment's `translated_text` unchanged precisely on those
segment lists (sorted by `sequence_id`) where the boundary decision fires at
no consecutive pair; under the identity translation the round trip is
byte-identical exactly in that case, and otherwise the preprocessing appends
one trailing space to each segment whose boundary fires. -/
theorem c1_roundtrip_amended (segs : List Segment)
    (hs : seqSortedB segs = true) (hnb : noBoundaryFire segs = true) :
    preprocessSegmentsWithSpaces segs = segs := by
  unfold preprocessSegmentsWithSpaces
  rw [sortBySeq_of_sorted segs hs]
  exact applyBoundaries_id segs hnb

/-- Witness for the C1 amended theorem at a concrete sorted two-segment
list whose boundary does not fire (the first text already ends with a
space). -/
theorem c1_roundtrip_amended_witness :
    preprocessSegmentsWithSpaces
      [{ sequence_id := 0, text_id := "t0", original_text := "hello",
         translated_text := .str "hello ", xml_file_path := "word/document.xml",
         element_xpath := [], shared_string_index := none, nsKey := some "w",
         space_info := analyzeTextSpaces "hello " },
       { sequence_id := 1, text_id := "t1", original_text := "world",
         translated_text := .str "world", xml_file_path := "word/document.xml",
         element_xpath := [], shared_string_index := none, nsKey := some "w",
         space_info := analyzeTextSpaces "world" }] =
      [{ sequence_id := 0, text_id := "t0", original_text := "hello",
         translated_text := .str "hello ", xml_file_path := "word/document.xml",
         element_xpath := [], shared_string_index := none, nsKey := some "w",
         space_info := analyzeTextSpaces "hello " },
       { sequence_id := 1, text_id := "t1", original_text := "world",
         translated_text := .str "world", xml_file_path := "word/document.xml",
         element_xpath := [], shared_string_index := none, nsKey := some "w",
         space_info := analyzeTextSpaces "world" }] :=
  c1_roundtrip_amended _ (by decide) (by decide)

/-! ## C3: the boundary space rule -/

theorem pyStrip_empty : pyStrip "" = "" := rfl

theorem ne_empty_of_strip_ne {s : String} (h : pyStrip s ≠ "") : s ≠ "" := by
  intro e
  exact h (by rw [e]; rfl)

theorem closing_not_digit (c : Char) (h : closingPunct.contains c = true) :
    c.isDigit = false := by
  have hm : c ∈ closingPunct := List.mem_of_elem_eq_true h
  simp only [closingPunct, List.mem_cons, List.not_mem_nil, or_false] at hm
  rcases hm with rfl | rfl | rfl | rfl | rfl | rfl | rfl | rfl | rfl | rfl | rfl <;> rfl

theorem opening_not_digit (c : Char) (h : openingPunct.contains c = true) :
    c.isDigit = false := by
  have hm : c ∈ openingPunct := List.mem_of_elem_eq_true h
  simp only [openingPunct, List.mem_cons, List.not_mem_nil, or_false] at hm
  rcases hm with rfl | rfl | rfl | rfl | rfl <;> rfl

theorem boundary_bool (A B dA dB p1 p2 e : Bool)
    (h1 : p1 = true → dA = false) (h2 : p2 = true → dB = false) :
    ((if ((A && B) || (if p1 && B then true else if A && p2 then true else false))
          && (dA && dB) then false
      else ((A && B) || (if p1 && B then true else if A && p2 then true else false)))
        && !e)
    = (((A && B && !(dA && dB)) || (p1 && B) || (A && p2)) && !e) := by
  cases p1 <;> cases p2 <;> simp_all <;>
    cases A <;> cases B <;> cases dA <;> cases dB <;> cases e <;> simp_all

/-- The code's boundary decision agrees with the spec's rule whenever both
texts are non-empty after trimming: a space is appended iff the spec
condition holds and the current text does not already end with a space. -/
theorem appendSpaceDecision_eq_spec (ta tb : String)
    (h1 : pyStrip ta ≠ "") (h2 : pyStrip tb ≠ "") :
    appendSpaceDecision (.str ta) (.str tb) =
      (specBoundaryRule ta tb && !(pyEndsWithSpace ta)) := by
  have hta : ta ≠ "" := ne_empty_of_strip_ne h1
  have htb : tb ≠ "" := ne_empty_of_strip_ne h2
  have e1 : (ta == "") = false := by simp [hta]
  have e2 : (tb == "") = false := by simp [htb]
  have e3 : (pyStrip ta == "") = false := by simp [h1]
  have e4 : (pyStrip tb == "") = false := by simp [h2]
  have hc1 := closing_not_digit (lastCharD (pyStrip ta))
  have hc2 := opening_not_digit (headCharD (pyStrip tb))
  simp only [appendSpaceDecision, getTranslatedDefault, shouldAddSpaceAfter,
    shouldAddSpaceAfterPunct, digitDigitAdj, specBoundaryRule,
    e1, e2, e3, e4, Bool.or_self, Bool.false_or, Bool.or_false, Bool.not_false,
    Bool.true_and, Bool.and_true, if_false, Bool.false_eq_true, ite_false]
  exact boundary_bool _ _ _ _ _ _ _ hc1 hc2

/-- C3: for every consecutive pair `(A, B)` in sequence order whose
translated texts are both non-empty after trimming, the preprocessing
appends exactly one ASCII space to `A`'s `translated_text` iff the spec's
boundary condition holds (both connection characters alphanumeric but not
both digits, or closing punctuation before an alphanumeric, or an
alphanumeric before opening punctuation) and `A`'s text does not already
end with a space; otherwise `A` is left unchanged by the boundary
decision. -/
theorem c3_boundary_space_rule (xs ys : List Segment) (a b : Segment) (ta tb : String)
    (hta : a.translated_text = .str ta) (htb : b.translated_text = .str tb)
    (h1 : pyStrip ta ≠ "") (h2 : pyStrip tb ≠ "")
    (hs : seqSortedB (xs ++ a :: b :: ys) = true) :
    (preprocessSegmentsWithSpaces (xs ++ a :: b :: ys)).get? xs.length =
      some (if specBoundaryRule ta tb && !(pyEndsWithSpace ta) then
        { a with translated_text := PyVal.str (ta ++ " ") }
      else a) := by
  unfold preprocessSegmentsWithSpaces
  rw [sortBySeq_of_sorted _ hs, applyBoundaries_get?, hta, htb,
    appendSpaceDecision_eq_spec ta tb h1 h2]
  rfl

/-- A segment record with given sequence id, raw text and translation, used
to instantiate theorems at concrete inputs. -/
def mkSeg (n : Nat) (t : String) (tr : PyVal) : Segment :=
  { sequence_id := n, text_id := "t" ++ toString n, original_text := pyStrip t,
    translated_text := tr, xml_file_path := "word/document.xml",
    element_xpath := [], shared_string_index := none, nsKey := some "w",
    space_info := analyzeTextSpaces t }

/-- Witness for C3 at the pair `"hello"`, `"world"`: the rule fires and one
space is appended. -/
theorem c3_boundary_space_rule_witness :
    (preprocessSegmentsWithSpaces
        [mkSeg 0 "hello" (.str "hello"), mkSeg 1 "world" (.str "world")]).get? 0 =
      some (if specBoundaryRule "hello" "world" && !(pyEndsWithSpace "hello") then
        { mkSeg 0 "hello" (.str "hello") with translated_text := PyVal.str ("hello" ++ " ") }
      else mkSeg 0 "hello" (.str "hello")) :=
  c3_boundary_space_rule [] [] (mkSeg 0 "hello" (.str "hello"))
    (mkSeg 1 "world" (.str "world")) "hello" "world" rfl rfl
    (by decide) (by decide) (by decide)

/-! ## C2: locator evaluation lemmas -/

theorem take_succ_get {α : Type} :
    ∀ (l : List α) (i : Nat) (x : α), l.get? i = some x → l.take (i + 1) = l.take i ++ [x] := by
  intro l
  induction l with
  | nil => intro i x h; simp at h
  | cons a rest ih =>
    intro i x h
    cases i with
    | zero =>
      simp only [List.get?] at h
      obtain rfl := Option.some.inj h
      rfl
    | succ j =>
      simp only [List.get?] at h
      simp [List.take, ih j x h]

theorem countTag_append (tag : String) (l1 l2 : List Xml) :
    countTag tag (l1 ++ l2) = countTag tag l1 + countTag tag l2 := by
  simp [countTag, List.filter_append]

theorem matchIdxsAux_get (tag : String) :
    ∀ (cs : List Xml) (i k : Nat) (c : Xml),
      cs.get? i = some c → (c.tag == tag) = true →
      (matchIdxsAux tag k cs).get? (countTag tag (cs.take i)) = some (k + i) := by
  intro cs
  induction cs with
  | nil => intro i k c h _; simp at h
  | cons x rest ih =>
    intro i k c h htag
    cases i with
    | zero =>
      simp only [List.get?] at h
      obtain rfl := Option.some.inj h
      simp [matchIdxsAux, htag, countTag]
    | succ j =>
      simp only [List.get?] at h
      have step := ih j (k + 1) c h htag
      have htake : (x :: rest).take (j + 1) = x :: rest.take j := rfl
      rw [htake]
      by_cases hx : (x.tag == tag) = true
      · have hm : matchIdxsAux tag k (x :: rest) = k :: matchIdxsAux tag (k + 1) rest := by
          simp [matchIdxsAux, hx]
        have hcount : countTag tag (x :: rest.take j) = countTag tag (rest.take j) + 1 := by
          simp [countTag, List.filter_cons, hx]
        rw [hm, hcount]
        simp only [List.get?]
        rw [step]
        congr 1
        omega
      · have hx' : (x.tag == tag) = false := by simpa using hx
        have hm : matchIdxsAux tag k (x :: rest) = matchIdxsAux tag (k + 1) rest := by
          simp [matchIdxsAux, hx']
        have hcount : countTag tag (x :: rest.take j) = countTag tag (rest.take j) := by
          simp [countTag, List.filter_cons, hx']
        rw [hm, hcount, step]
        congr 1
        omega

theorem childMatch_cons (root : Xml) (pre : List Nat) (c ch : Xml) (i : Nat)
    (hc : locate root pre = some c) (hget : c.children.get? i = some ch) :
    ∃ t, childMatchPaths root pre (stepFor c.children i ch) = (pre ++ [i]) :: t := by
  have htake : c.children.take (i + 1) = c.children.take i ++ [ch] :=
    take_succ_get c.children i ch hget
  have hself : (ch.tag == ch.tag) = true := by simp
  have hcnt : countTag ch.tag (c.children.take (i + 1)) =
      countTag ch.tag (c.children.take i) + 1 := by
    rw [htake, countTag_append]
    simp [countTag, List.filter_cons, hself]
  have hidx := matchIdxsAux_get ch.tag c.children i 0 ch hget hself
  simp only [Nat.zero_add] at hidx
  unfold childMatchPaths
  rw [hc]
  unfold matchIdxs stepFor
  rw [hcnt]
  by_cases h0 : countTag ch.tag (c.children.take i) = 0
  · -- position 1: no positional suffix; the target is the head of the tag list
    rw [h0]
    simp only [Nat.zero_add, show ¬ (1 < 1) from by omega, if_false]
    rw [h0] at hidx
    cases htag : matchIdxsAux ch.tag 0 c.children with
    | nil => rw [htag] at hidx; exact absurd hidx (by simp)
    | cons y t =>
      rw [htag] at hidx
      simp only [List.get?, Option.some.injEq] at hidx
      subst hidx
      exact ⟨t.map (fun j => pre ++ [j]), by simp⟩
  · -- position > 1: explicit positional suffix selects exactly the target
    have h1 : 1 < countTag ch.tag (c.children.take i) + 1 := by omega
    simp only [h1, if_true]
    have : countTag ch.tag (c.children.take i) + 1 - 1 =
        countTag ch.tag (c.children.take i) := by omega
    rw [this, hidx]
    exact ⟨[], by simp⟩

theorem locate_docNode_extend (root : Xml) (pre : List Nat) (c ch : Xml) (i : Nat)
    (hc : locate (docNode root) pre = some c) (hget : c.children.get? i = some ch) :
    locate (docNode root) (pre ++ [i]) = some ch := by
  rw [locate_append, hc]
  have hstep : locate c [i] = some ch := by
    simp only [locate]
    rw [hget]
  simpa using hstep

theorem xpathFold_head (root : Xml) :
    ∀ (p : List Nat) (c : Xml) (pre : List Nat) (L : List (List Nat)),
      locate (docNode root) pre = some c → (locate c p).isSome →
      ((mkStepsAux c p).foldl (stepEvalPaths (docNode root)) (pre :: L)).head? =
        some (pre ++ p) := by
  intro p
  induction p with
  | nil =>
    intro c pre L _ _
    simp [mkStepsAux]
  | cons i p' ih =>
    intro c pre L hc hp
    cases hch : c.children.get? i with
    | none =>
      rw [locate, hch] at hp
      exact absurd hp (by simp)
    | some ch =>
      have hp' : (locate ch p').isSome := by
        rw [locate, hch] at hp
        exact hp
      obtain ⟨t, ht⟩ := childMatch_cons (docNode root) pre c ch i hc hch
      have hloc := locate_docNode_extend root pre c ch i hc hch
      have hme : mkStepsAux c (i :: p') = stepFor c.children i ch :: mkStepsAux ch p' := by
        simp only [mkStepsAux]
        rw [hch]
      rw [hme, List.foldl_cons]
      have hse : stepEvalPaths (docNode root) (pre :: L) (stepFor c.children i ch) =
          (pre ++ [i]) ::
            (t ++ (L.map (fun pp =>
              childMatchPaths (docNode root) pp (stepFor c.children i ch))).flatten) := by
        simp [stepEvalPaths, ht]
      rw [hse]
      have := ih ch (pre ++ [i])
        (t ++ (L.map (fun pp =>
          childMatchPaths (docNode root) pp (stepFor c.children i ch))).flatten) hloc hp'
      simpa [List.append_assoc] using this

theorem xpath_first_step (root : Xml) :
    ∃ t, stepEvalPaths (docNode root) (descPaths (docNode root))
        { tag := root.tag, pos := none } = [0] :: t := by
  have hd : descPaths (docNode root) = [] :: (descPaths root).map (fun p => 0 :: p) := by
    simp [docNode, descPaths, descPathsL]
  have hcm : childMatchPaths (docNode root) [] { tag := root.tag, pos := none } = [[0]] := by
    simp [childMatchPaths, locate, matchIdxs, docNode, Xml.children, XmlList.toList,
      matchIdxsAux]
  refine ⟨((descPaths root).map (fun p => 0 :: p)).map
    (fun pp => childMatchPaths (docNode root) pp { tag := root.tag, pos := none }) |>.flatten, ?_⟩
  rw [hd]
  simp [stepEvalPaths, hcm]

theorem locate_docNode_zero (root : Xml) : locate (docNode root) [0] = some root := by
  simp [locate, docNode, Xml.children, XmlList.toList]

/-- C2 amended: the locator built by `_create_element_xpath` for an element
always resolves to a non-empty node set whose FIRST match in document order
is exactly that element. -/
theorem c2_locator_first_match (root : Xml) (path : List Nat)
    (h : (locate root path).isSome) :
    xpathFirst root (mkXpath root path) = some path := by
  obtain ⟨t, ht⟩ := xpath_first_step root
  have hfold := xpathFold_head root path root [0] t (locate_docNode_zero root) h
  have hpaths : (xpathPaths root (mkXpath root path)).head? = some (0 :: path) := by
    unfold xpathPaths mkXpath
    rw [List.foldl_cons, ht]
    simpa using hfold
  unfold xpathFirst
  cases hx : xpathPaths root (mkXpath root path) with
  | nil => rw [hx] at hpaths; exact absurd hpaths (by simp)
  | cons pp rest =>
    rw [hx] at hpaths
    simp only [List.head?, Option.some.injEq] at hpaths
    subst hpaths
    rfl

/-- C2 counterexample: in the two-run document `docTwoRuns`, the locator
built for the FIRST `w:t` (the first of two same-tag `w:r` siblings gets no
positional suffix) resolves to BOTH `w:t` nodes — 2 matches, not exactly
one. -/
theorem c2_locator_counterexample :
    (locate docTwoRuns [0, 0, 0, 0]).isSome = true ∧
      (xpathPaths docTwoRuns (mkXpath docTwoRuns [0, 0, 0, 0])).length = 2 := by
  exact ⟨rfl, rfl⟩

/-- Witness for the C2 amended theorem: in `docTwoRuns` the first `w:t`'s
ambiguous locator still has that very node as its first match. -/
theorem c2_locator_first_match_witness :
    xpathFirst docTwoRuns (mkXpath docTwoRuns [0, 0, 0, 0]) = some [0, 0, 0, 0] :=
  c2_locator_first_match docTwoRuns [0, 0, 0, 0] (by decide)

/-! ## C4: pure-space segments -/

theorem appendSpaceDecision_left_blank (t : String) (h : pyStrip t = "") (v : PyVal) :
    appendSpaceDecision (.str t) v = false := by
  cases v with
  | null => rfl
  | absent =>
    simp [appendSpaceDecision, getTranslatedDefault, shouldAddSpaceAfter,
      shouldAddSpaceAfterPunct]
  | str u =>
    simp [appendSpaceDecision, getTranslatedDefault, shouldAddSpaceAfter,
      shouldAddSpaceAfterPunct, digitDigitAdj, h]

/-- C4: a segment with `is_pure_space = true` (with its `space_info` as
computed at extraction) is never among the segments rendered into the
translation hand-off output; after `update_translations` its
`translated_text` equals its captured `raw_text`; and the space
preprocessing never modifies that text, so rebuild writes the original
whitespace back verbatim. -/
theorem c4_pure_space_passthrough (s : Segment) (raw : String)
    (hw : s.space_info = analyzeTextSpaces raw)
    (hp : s.space_info.is_pure_space = true) :
    (∀ segs : List Segment, s ∉ handoffSources segs) ∧
      (∀ (mapping : Nat → Option String) (dict : String → Option String) (i : Nat),
        (updateSegmentNew mapping dict i s).translated_text = .str s.space_info.raw_text) ∧
      (∀ v : PyVal, appendSpaceDecision (.str s.space_info.raw_text) v = false) := by
  have hsr : pyStrip s.space_info.raw_text = "" := by
    rw [hw] at hp ⊢
    by_cases hraw : raw = ""
    · subst hraw; rfl
    · simp only [analyzeTextSpaces, hraw, if_neg, if_false] at hp ⊢
      simpa using hp
  refine ⟨?_, ?_, ?_⟩
  · intro segs hmem
    rw [handoffSources, List.mem_filter] at hmem
    rw [hp] at hmem
    simp at hmem
  · intro mapping dict i
    simp [updateSegmentNew, hp]
  · intro v
    exact appendSpaceDecision_left_blank _ hsr v

/-- Witness for C4 at a one-space raw text. -/
theorem c4_pure_space_passthrough_witness :
    (mkSeg 0 " " (.str "") ∉ handoffSources [mkSeg 0 " " (.str "")]) ∧
      ((updateSegmentNew (fun _ => none) (fun _ => none) 0
          (mkSeg 0 " " (.str ""))).translated_text =
        .str (mkSeg 0 " " (.str "")).space_info.raw_text) ∧
      (appendSpaceDecision (.str (mkSeg 0 " " (.str "")).space_info.raw_text)
          (.str "next") = false) :=
  ⟨(c4_pure_space_passthrough (mkSeg 0 " " (.str "")) " " rfl (by decide)).1 _,
    (c4_pure_space_passthrough (mkSeg 0 " " (.str "")) " " rfl (by decide)).2.1 _ _ 0,
    (c4_pure_space_passthrough (mkSeg 0 " " (.str "")) " " rfl (by decide)).2.2 _⟩

/-! ## C5: None skip versus empty-string write -/

theorem processDocxSegment_write (tree : Xml) (n : Nat) (s : Segment) (pp : List Nat)
    (final : String) (hget : getTranslatedDefault s.translated_text = some final)
    (hne : s.element_xpath ≠ [])
    (hxf : xpathFirst tree s.element_xpath = some pp) :
    processDocxSegment { tree := tree, replaced := n } s =
      { tree := modifyAt (docxApplyText final) tree pp, replaced := n + 1 } := by
  unfold processDocxSegment
  rw [hget]
  simp only [hne, if_false, if_neg hne]
  rw [hxf]

/-- C5 amended: at rebuild, a segment whose `translated_text` is `None` is
skipped entirely (tree unchanged, replacement counter untouched); a segment
whose `translated_text` is the empty string — and likewise one whose
`translated_text` field is ABSENT, which the code defaults to the empty
string — is written: the located node's text is set to empty and the
counter is incremented. -/
theorem c5_null_skip_empty_write :
    (∀ (st : ReplaceState) (s : Segment), s.translated_text = PyVal.null →
        processDocxSegment st s = st) ∧
      (∀ (tree : Xml) (n : Nat) (s : Segment) (pp : List Nat) (e : Xml),
        getTranslatedDefault s.translated_text = some "" →
        s.element_xpath ≠ [] →
        xpathFirst tree s.element_xpath = some pp →
        locate tree pp = some e →
        processDocxSegment { tree := tree, replaced := n } s =
          { tree := modifyAt (docxApplyText "") tree pp, replaced := n + 1 } ∧
        (locate (modifyAt (docxApplyText "") tree pp) pp).map Xml.text = some "") := by
  constructor
  · intro st s h
    unfold processDocxSegment
    rw [h]
    rfl
  · intro tree n s pp e hget hne hxf hloc
    refine ⟨processDocxSegment_write tree n s pp "" hget hne hxf, ?_⟩
    rw [locate_modifyAt (docxApplyText "") pp tree e hloc]
    cases e with
    | elem tg tx pv cs => rfl

/-- The one-text-node tree used for the C5 and C7 concrete instances. -/
def oneNodeTree : Xml :=
  .elem "w:document" "" false (.cons (.elem "w:t" "hi" false .nil) .nil)

/-- A segment whose `translated_text` KEY IS ABSENT, pointing at the `w:t`
node of `oneNodeTree`. -/
def absentSeg : Segment :=
  { sequence_id := 0, text_id := "t0", original_text := "hi",
    translated_text := .absent, xml_file_path := "word/document.xml",
    element_xpath := mkXpath oneNodeTree [0], shared_string_index := none,
    nsKey := some "w", space_info := analyzeTextSpaces "hi" }

/-- C5 counterexample: a segment whose `translated_text` field is absent is
NOT skipped — `segment.get('translated_text', '')` defaults it to the empty
string, so the node is blanked and the replacement counter is
incremented. -/
theorem c5_absent_counterexample :
    (processDocxSegment { tree := oneNodeTree, replaced := 0 } absentSeg).replaced = 1 ∧
      ((locate (processDocxSegment { tree := oneNodeTree, replaced := 0 } absentSeg).tree
          [0]).map Xml.text = some "") ∧
      absentSeg.translated_text = PyVal.absent := ⟨rfl, rfl, rfl⟩

/-- A segment with the empty-string translation, pointing at the `w:t` node
of `oneNodeTree`. -/
def emptyStrSeg : Segment :=
  { absentSeg with translated_text := .str "" }

/-- Witness for the C5 theorem: `None` is skipped on `oneNodeTree`, and the
empty-string segment is written there with the counter incremented. -/
theorem c5_null_skip_empty_write_witness :
    (processDocxSegment { tree := oneNodeTree, replaced := 0 }
        { absentSeg with translated_text := PyVal.null } =
      { tree := oneNodeTree, replaced := 0 }) ∧
      (processDocxSegment { tree := oneNodeTree, replaced := 0 } emptyStrSeg =
        { tree := modifyAt (docxApplyText "") oneNodeTree [0], replaced := 0 + 1 } ∧
      (locate (modifyAt (docxApplyText "") oneNodeTree [0]) [0]).map Xml.text = some "") :=
  ⟨c5_null_skip_empty_write.1 _ _ rfl,
    c5_null_skip_empty_write.2 oneNodeTree 0 emptyStrSeg [0]
      (Xml.elem "w:t" "hi" false .nil) rfl (by decide) rfl rfl⟩

/-! ## C7: whitespace-preserve marking -/

theorem processPptxSegment_write (tree : Xml) (n : Nat) (s : Segment) (pp : List Nat)
    (final : String) (hget : getTranslatedDefault s.translated_text = some final)
    (hne : s.element_xpath ≠ [])
    (hxf : xpathFirst tree s.element_xpath = some pp) :
    processPptxSegment { tree := tree, replaced := n } s =
      { tree := modifyAt (setTextOnly final) tree pp, replaced := n + 1 } := by
  unfold processPptxSegment
  rw [hget]
  simp only [hne, if_false, if_neg hne]
  rw [hxf]

theorem processXlsxSharedSegment_write (tree : Xml) (n : Nat) (s : Segment)
    (idx : Nat) (siPath : List Nat) (siElem : Xml) (tp : List Nat) (final : String)
    (hget : getTranslatedDefault s.translated_text = some final)
    (hidx : s.shared_string_index = some idx)
    (hsi : xpathFirst tree [{ tag := siTagOf s.nsKey, pos := some (idx + 1) }] = some siPath)
    (hse : locate tree siPath = some siElem)
    (htp : firstTagPathIn (tTagOf s.nsKey) siElem = some tp) :
    processXlsxSharedSegment { tree := tree, replaced := n } s =
      { tree := modifyAt (setTextOnly final) tree (siPath ++ tp), replaced := n + 1 } := by
  unfold processXlsxSharedSegment
  rw [hget, hidx]
  dsimp only
  rw [hsi]
  dsimp only
  rw [hse]
  dsimp only
  rw [htp]

/-- C7 amended: only the DOCX replacement path performs
whitespace-preserve marking — there, a replaced node carries the
`xml:space="preserve"` attribute after replacement iff the final text starts
with a space, ends with a space, or contains two consecutive spaces.  The
PPTX and XLSX shared-strings replacement paths never touch the attribute:
the replaced node keeps whatever attribute state it had. -/
theorem c7_preserve_amended :
    (∀ (tree : Xml) (n : Nat) (s : Segment) (pp : List Nat) (e : Xml) (final : String),
      getTranslatedDefault s.translated_text = some final →
      s.element_xpath ≠ [] →
      xpathFirst tree s.element_xpath = some pp →
      locate tree pp = some e →
      (locate (processDocxSegment { tree := tree, replaced := n } s).tree pp).map Xml.pres =
        some (requiresXmlSpacePreserve final)) ∧
    (∀ (tree : Xml) (n : Nat) (s : Segment) (pp : List Nat) (e : Xml) (final : String),
      getTranslatedDefault s.translated_text = some final →
      s.element_xpath ≠ [] →
      xpathFirst tree s.element_xpath = some pp →
      locate tree pp = some e →
      (locate (processPptxSegment { tree := tree, replaced := n } s).tree pp).map Xml.pres =
        some e.pres) ∧
    (∀ (tree : Xml) (n : Nat) (s : Segment) (idx : Nat) (siPath : List Nat)
        (siElem : Xml) (tp : List Nat) (tNode : Xml) (final : String),
      getTranslatedDefault s.translated_text = some final →
      s.shared_string_index = some idx →
      xpathFirst tree [{ tag := siTagOf s.nsKey, pos := some (idx + 1) }] = some siPath →
      locate tree siPath = some siElem →
      firstTagPathIn (tTagOf s.nsKey) siElem = some tp →
      locate tree (siPath ++ tp) = some tNode →
      (locate (processXlsxSharedSegment { tree := tree, replaced := n } s).tree
          (siPath ++ tp)).map Xml.pres = some tNode.pres) := by
  refine ⟨?_, ?_, ?_⟩
  · intro tree n s pp e final hget hne hxf hloc
    rw [processDocxSegment_write tree n s pp final hget hne hxf]
    rw [locate_modifyAt (docxApplyText final) pp tree e hloc]
    cases e with
    | elem tg tx pv cs => rfl
  · intro tree n s pp e final hget hne hxf hloc
    rw [processPptxSegment_write tree n s pp final hget hne hxf]
    rw [locate_modifyAt (setTextOnly final) pp tree e hloc]
    cases e with
    | elem tg tx pv cs => rfl
  · intro tree n s idx siPath siElem tp tNode final hget hidx hsi hse htp hnode
    rw [processXlsxSharedSegment_write tree n s idx siPath siElem tp final
      hget hidx hsi hse htp]
    rw [locate_modifyAt (setTextOnly final) (siPath ++ tp) tree tNode hnode]
    cases tNode with
    | elem tg tx pv cs => rfl

/-- A PPTX drawing-text tree with one `a:t` node. -/
def pptxOneNode : Xml :=
  .elem "p:sld" "" false (.cons (.elem "a:t" "x" false .nil) .nil)

/-- A PPTX segment whose final replacement text ends with a space. -/
def pptxSeg : Segment :=
  { sequence_id := 0, text_id := "s0", original_text := "x",
    translated_text := .str "hi ", xml_file_path := "ppt/slides/slide1.xml",
    element_xpath := mkXpath pptxOneNode [0], shared_string_index := none,
    nsKey := none, space_info := analyzeTextSpaces "x" }

/-- C7 counterexample: in the PPTX replacement path a node whose final text
ends with a space does NOT receive the whitespace-preserve attribute, even
though `_requires_xml_space_preserve` holds for that text. -/
theorem c7_preserve_counterexample :
    requiresXmlSpacePreserve "hi " = true ∧
      (processPptxSegment { tree := pptxOneNode, replaced := 0 } pptxSeg).replaced = 1 ∧
      ((locate (processPptxSegment { tree := pptxOneNode, replaced := 0 } pptxSeg).tree
          [0]).map Xml.pres = some false) ∧
      ((locate (processPptxSegment { tree := pptxOneNode, replaced := 0 } pptxSeg).tree
          [0]).map Xml.text = some "hi ") := ⟨rfl, rfl, rfl, rfl⟩

/-- An XLSX shared-strings tree with one `x:si`/`x:t` entry. -/
def xlsxSst : Xml :=
  .elem "x:sst" "" false (.cons
    (.elem "x:si" "" false (.cons (.elem "x:t" "cell" false .nil) .nil)) .nil)

/-- An XLSX shared-string segment with a trailing-space translation. -/
def xlsxSeg : Segment :=
  { sequence_id := 0, text_id := "shared_string_0_0", original_text := "cell",
    translated_text := .str "v ", xml_file_path := "xl/sharedStrings.xml",
    element_xpath := [], shared_string_index := some 0,
    nsKey := some "x", space_info := analyzeTextSpaces "cell" }

/-- A DOCX segment writing a trailing-space text into `oneNodeTree`. -/
def docxSpaceSeg : Segment :=
  { absentSeg with translated_text := .str "hi " }

/-- Witness for the C7 amended theorem: the DOCX path marks a
trailing-space text, the PPTX path leaves the attribute alone on the same
kind of text, and so does the XLSX shared-strings path. -/
theorem c7_preserve_amended_witness :
    ((locate (processDocxSegment { tree := oneNodeTree, replaced := 0 } docxSpaceSeg).tree
        [0]).map Xml.pres = some (requiresXmlSpacePreserve "hi ")) ∧
      ((locate (processPptxSegment { tree := pptxOneNode, replaced := 0 } pptxSeg).tree
          [0]).map Xml.pres = some (Xml.elem "a:t" "x" false .nil).pres) ∧
      ((locate (processXlsxSharedSegment { tree := xlsxSst, replaced := 0 } xlsxSeg).tree
          ([0] ++ [0])).map Xml.pres = some (Xml.elem "x:t" "cell" false .nil).pres) :=
  ⟨c7_preserve_amended.1 oneNodeTree 0 docxSpaceSeg [0] (Xml.elem "w:t" "hi" false .nil)
      "hi " rfl (by decide) rfl rfl,
    c7_preserve_amended.2.1 pptxOneNode 0 pptxSeg [0] (Xml.elem "a:t" "x" false .nil)
      "hi " rfl (by decide) rfl rfl,
    c7_preserve_amended.2.2 xlsxSst 0 xlsxSeg 0 [0]
      (Xml.elem "x:si" "" false (.cons (.elem "x:t" "cell" false .nil) .nil)) [0]
      (Xml.elem "x:t" "cell" false .nil) "v " rfl rfl rfl rfl rfl rfl⟩

/-! ## C8: validation versus retry -/

theorem runFrom_allBad (outcomes : Nat → ParseOutcome) (d : Nat)
    (h : ∀ j, outcomes j = ParseOutcome.badZip) :
    ∀ (r k : Nat), runFrom outcomes d k r =
      { attempts := r + 1, delays := (List.range r).map (fun i => d * (k + 1 + i)),
        success := false, resourceAbort := false } := by
  intro r
  induction r with
  | zero =>
    intro k
    simp [runFrom, h k]
  | succ r ih =>
    intro k
    rw [runFrom, h k]
    dsimp only
    rw [ih (k + 1)]
    refine congrArg (fun dl => RunTrace.mk (r + 1 + 1) dl false false) ?_
    rw [List.range_succ_eq_map, List.map_cons, List.map_map]
    refine congrArg (fun dl => d * (k + 1 + 0) :: dl) ?_
    refine List.map_congr_left ?_
    intro i _
    simp only [Function.comp]
    congr 1
    omega

/-- C8 amended: an input whose first bytes are not the zip magic `PK` is
rejected by `_validate_inputs` immediately — `parse_file` makes NO parse
attempt and observes no backoff delay.  An input that passes validation but
keeps raising a corrupted-archive error fails after exactly
`max_retries + 1` attempts with the delays `retry_delay * 1, retry_delay *
2, ...` between consecutive attempts; a resource-exhaustion error
(`MemoryError`/`OverflowError`) aborts after the first attempt with no
delay and no retry. -/
theorem c8_retry_amended :
    (∀ (fileData : List Nat) (fileType : String) (outcomes : Nat → ParseOutcome)
        (mr d : Nat),
      validateInputs fileData fileType = none →
      (∀ j, outcomes j = ParseOutcome.badZip) →
      parseFileModel fileData fileType outcomes mr d =
        some { attempts := mr + 1, delays := (List.range mr).map (fun i => d * (i + 1)),
               success := false, resourceAbort := false }) ∧
    (∀ (fileData : List Nat) (fileType : String) (outcomes : Nat → ParseOutcome)
        (mr d : Nat),
      validateInputs fileData fileType = none →
      outcomes 0 = ParseOutcome.resource →
      parseFileModel fileData fileType outcomes mr d =
        some { attempts := 1, delays := [], success := false, resourceAbort := true }) := by
  constructor
  · intro fileData fileType outcomes mr d hv hb
    unfold parseFileModel
    rw [hv, runFrom_allBad outcomes d hb mr 0]
    refine congrArg (fun dl => some (RunTrace.mk (mr + 1) dl false false)) ?_
    refine List.map_congr_left ?_
    intro i _
    congr 1
    omega
  · intro fileData fileType outcomes mr d hv hr
    unfold parseFileModel
    rw [hv]
    cases mr with
    | zero => rw [runFrom, hr]
    | succ r => rw [runFrom, hr]

/-- Bytes with a corrupted zip signature: 100 zero bytes (large enough to
pass the size checks, but not starting with `PK`). -/
def badSigBytes : List Nat := List.replicate 100 0

/-- C8 counterexample: input bytes whose zip signature is corrupted do NOT
cause `max_retries + 1` parse attempts — input validation rejects them
before the first attempt, so zero attempts and zero backoff delays
happen. -/
theorem c8_signature_counterexample :
    parseFileModel badSigBytes "docx" (fun _ => ParseOutcome.badZip) 3 1 = none ∧
      validateInputs badSigBytes "docx" =
        some "Invalid file format - not a ZIP-based file" := ⟨rfl, rfl⟩

/-- Bytes passing validation: the `PK` signature then 98 zero bytes. -/
def pkBytes : List Nat := 0x50 :: 0x4B :: List.replicate 98 0

/-- Witness for the C8 amended theorem at `max_retries = 3`,
`retry_delay = 1`: 4 attempts with delays 1, 2, 3; and a resource error
aborts after 1 attempt. -/
theorem c8_retry_amended_witness :
    (parseFileModel pkBytes "docx" (fun _ => ParseOutcome.badZip) 3 1 =
      some { attempts := 3 + 1, delays := (List.range 3).map (fun i => 1 * (i + 1)),
             success := false, resourceAbort := false }) ∧
      (parseFileModel pkBytes "docx" (fun _ => ParseOutcome.resource) 3 1 =
        some { attempts := 1, delays := [], success := false, resourceAbort := true }) :=
  ⟨c8_retry_amended.1 pkBytes "docx" (fun _ => ParseOutcome.badZip) 3 1 rfl (fun _ => rfl),
    c8_retry_amended.2 pkBytes "docx" (fun _ => ParseOutcome.resource) 3 1 rfl rfl⟩

/-! ## C10: empty-string translations -/

/-- Every stored value of the parsed translation dict is non-empty. -/
def allValuesNonempty (dl : List (String × String)) : Prop :=
  ∀ p ∈ dl, p.2 ≠ ""

theorem upsert_nonempty (k v : String) (hv : v ≠ "") :
    ∀ dl : List (String × String), allValuesNonempty dl → allValuesNonempty (upsert dl k v) := by
  intro dl
  induction dl with
  | nil =>
    intro _ p hp
    simp only [upsert, List.mem_singleton] at hp
    subst hp
    exact hv
  | cons q rest ih =>
    intro hall p hp
    rw [show upsert (q :: rest) k v =
        (if q.1 == k then (q.1, v) :: rest else q :: upsert rest k v) from by
      cases q with
      | mk a b => rfl] at hp
    by_cases hq : (q.1 == k) = true
    · rw [if_pos hq] at hp
      rcases List.mem_cons.mp hp with rfl | hmem
      · exact hv
      · exact hall p (List.mem_cons_of_mem q hmem)
    · rw [if_neg hq] at hp
      rcases List.mem_cons.mp hp with rfl | hmem
      · exact hall p (List.mem_cons_self p rest)
      · exact ih (fun r hr => hall r (List.mem_cons_of_mem q hr)) p hmem

theorem parseTranslationPairs_nonempty (pairs : List (String × String)) :
    ∀ acc : List (String × String), allValuesNonempty acc →
      allValuesNonempty (pairs.foldl (fun acc pr =>
        if pr.1 == "" then acc
        else if pyStrip pr.2 == "" then acc
        else upsert acc pr.1 (pyStrip pr.2)) acc) := by
  induction pairs with
  | nil => intro acc h; exact h
  | cons pr rest ih =>
    intro acc h
    rw [List.foldl_cons]
    by_cases h1 : (pr.1 == "") = true
    · rw [if_pos h1]; exact ih acc h
    · rw [if_neg h1]
      by_cases h2 : (pyStrip pr.2 == "") = true
      · rw [if_pos h2]; exact ih acc h
      · rw [if_neg h2]
        refine ih _ (upsert_nonempty pr.1 (pyStrip pr.2) ?_ acc h)
        simpa using h2

theorem dictLookup_mem (key v : String) :
    ∀ dl : List (String × String), dictLookup dl key = some v → ∃ k, (k, v) ∈ dl := by
  intro dl
  induction dl with
  | nil => intro h; simp [dictLookup] at h
  | cons q rest ih =>
    intro h
    rw [show dictLookup (q :: rest) key =
        (if q.1 == key then some q.2 else dictLookup rest key) from by
      cases q with
      | mk a b => rfl] at h
    by_cases hq : (q.1 == key) = true
    · rw [if_pos hq] at h
      obtain rfl := Option.some.inj h
      exact ⟨q.1, by cases q; exact List.mem_cons_self _ rest⟩
    · rw [if_neg hq] at h
      obtain ⟨k, hk⟩ := ih h
      exact ⟨k, List.mem_cons_of_mem q hk⟩

theorem string_append3_ne_empty (a t b : String) (ht : t ≠ "") : a ++ t ++ b ≠ "" := by
  intro e
  apply ht
  have hd := congrArg String.data e
  simp only [String.data_append] at hd
  rcases List.append_eq_nil.mp hd with ⟨hab, _⟩
  rcases List.append_eq_nil.mp hab with ⟨_, htd⟩
  cases t with
  | mk td => simp at htd; simp [htd]

/-- C10 amended: the translation hand-back path never assigns the empty
string — hand-back segment elements with empty or whitespace-only content
are dropped during parsing (every stored dict value is non-empty), and a
content segment whose translation is missing or empty keeps its previous
`translated_text` — and more generally `update_translations` never assigns
the empty string to a segment whose captured `raw_text` is non-empty.  But
a segment whose `raw_text` is itself empty IS assigned the empty string by
the pure-space passthrough, so the "intentional blanking" state can still
be produced by the update step (only not via the hand-back content
path). -/
theorem c10_no_empty_amended :
    (∀ (pairs : List (String × String)) (id v : String),
      dictLookup (parseTranslationPairs pairs) id = some v → v ≠ "") ∧
    (∀ (mapping : Nat → Option String) (dict : String → Option String) (i : Nat)
        (s : Segment) (raw : String),
      s.space_info = analyzeTextSpaces raw → raw ≠ "" →
      (updateSegmentNew mapping dict i s).translated_text = s.translated_text ∨
        (updateSegmentNew mapping dict i s).translated_text ≠ PyVal.str "") := by
  constructor
  · intro pairs id v h
    obtain ⟨k, hk⟩ := dictLookup_mem id v (parseTranslationPairs pairs) h
    exact parseTranslationPairs_nonempty pairs [] (by intro p hp; simp at hp) (k, v) hk
  · intro mapping dict i s raw hw hraw
    have hrt : s.space_info.raw_text = raw := by
      rw [hw]
      simp [analyzeTextSpaces, hraw]
    unfold updateSegmentNew
    by_cases hp : s.space_info.is_pure_space = true
    · rw [if_pos hp]
      right
      simp only [ne_eq, PyVal.str.injEq]
      rw [hrt]
      exact hraw
    · rw [if_neg hp]
      by_cases hc : s.space_info.has_content = true
      · rw [if_pos hc]
        cases hm : mapping i with
        | none =>
          dsimp only
          right
          simp only [ne_eq, PyVal.str.injEq]
          rw [hrt]
          exact hraw
        | some xmlId =>
          dsimp only
          cases hd : dict xmlId with
          | none => left; rfl
          | some tr =>
            dsimp only
            by_cases he : (pyStrip tr == "") = true
            · rw [if_pos he]; left; rfl
            · rw [if_neg he]
              right
              simp only [ne_eq, PyVal.str.injEq]
              exact string_append3_ne_empty _ _ _ (by simpa using he)
      · rw [if_neg hc]
        left
        rfl

/-- C10 counterexample: `update_translations` DOES assign the empty string:
an extracted segment whose raw node text is empty (an empty `w:t`) takes
the pure-space branch and is assigned its raw text verbatim, which is
`""` — overwriting its previous `translated_text`. -/
theorem c10_empty_assignment_counterexample :
    (updateSegmentNew (fun _ => none) (fun _ => none) 0
        (mkSeg 0 "" (.str "old"))).translated_text = PyVal.str "" ∧
      (mkSeg 0 "" (.str "old")).translated_text = PyVal.str "old" := ⟨rfl, rfl⟩

/-- Witness for the C10 amended theorem: a parsed dict value is non-empty,
and updating a content segment with a present translation never yields the
empty string. -/
theorem c10_no_empty_amended_witness :
    "hi" ≠ "" ∧
      ((updateSegmentNew (fun _ => some "001") (fun _ => some "hi") 0
          (mkSeg 0 "text" (.str ""))).translated_text =
        (mkSeg 0 "text" (.str "")).translated_text ∨
      (updateSegmentNew (fun _ => some "001") (fun _ => some "hi") 0
          (mkSeg 0 "text" (.str ""))).translated_text ≠ PyVal.str "") :=
  ⟨c10_no_empty_amended.1 [("001", " hi ")] "001" "hi" rfl,
    c10_no_empty_amended.2 (fun _ => some "001") (fun _ => some "hi") 0
      (mkSeg 0 "text" (.str "")) "text" rfl (by decide)⟩
